import Mathlib

/-
  Verification of the kazoo-bot repository (music-bingo Telegram bot with an
  admin web panel) against its natural-language specification.

  The development shallowly embeds the relevant parts of the three source
  files:
    - src/db.py        : SQLite persistence (tracks, used_tracks, broadcasts,
                         broadcast_files), including the per-connection
                         foreign_keys pragma semantics of SQLite;
    - src/main.py      : `_send_random_track` (pick an unseen active track,
                         mark it used, or report cycle completion);
    - src/admin_web.py : the broadcast compose/fan-out handler
                         `broadcasts_new_submit`, `_save_files_for_broadcast`,
                         and the backup/`restore` endpoints.

  Randomness (SQL `ORDER BY RANDOM() LIMIT 1`) is modelled by a seed choosing
  an index into the candidate list; transport failures (aiogram send calls
  raising) are modelled by a Boolean oracle indexed by the per-recipient call
  counter.
-/

namespace Kazoo

/-! ## Track selection (src/db.py lines 152-190, src/main.py lines 110-154) -/

/-- A row of the `tracks` table (src/db.py lines 18-25). -/
structure Track where
  id : Nat
  title : String
  points : Int
  hint : Option String
  isActive : Bool
  createdAt : Nat
deriving DecidableEq, Repr

/-- The persistent state the track-selection engine reads and writes:
the `tracks` table and the `used_tracks` relation (user_id, track_id). -/
structure TrackDb where
  tracks : List Track
  used : List (Nat × Nat)
deriving DecidableEq, Repr

/-- The candidate set of `get_random_track_for_user`'s SELECT
(src/db.py lines 158-170): active tracks whose id is not yet in
`used_tracks` for this user. -/
def eligibleTracks (db : TrackDb) (uid : Nat) : List Track :=
  db.tracks.filter (fun t => t.isActive && !(decide ((uid, t.id) ∈ db.used)))

/-- `get_random_track_for_user` (src/db.py lines 152-172): one row of the
candidate set chosen by `ORDER BY RANDOM() LIMIT 1`, modelled by the seed
`r` indexing the list; `none` when the candidate set is empty. -/
def get_random_track_for_user (db : TrackDb) (uid : Nat) (r : Nat) : Option Track :=
  let el := eligibleTracks db uid
  el[r % el.length]?

/-- `mark_track_used` (src/db.py lines 175-184): `INSERT OR IGNORE` of the
pair into `used_tracks`. -/
def mark_track_used (db : TrackDb) (uid tid : Nat) : TrackDb :=
  if (uid, tid) ∈ db.used then db else { db with used := db.used ++ [(uid, tid)] }

/-- `clear_used_tracks` (src/db.py lines 187-190). -/
def clear_used_tracks (db : TrackDb) (uid : Nat) : TrackDb :=
  { db with used := db.used.filter (fun e => e.1 ≠ uid) }

/-- Result of `_send_random_track` as seen by the user: either a track
message or the distinguished cycle-complete congratulation
(src/main.py lines 116-124). -/
inductive PickResult where
  | track (t : Track)
  | cycleComplete
deriving DecidableEq, Repr

/-- `_send_random_track` (src/main.py lines 110-154): fetch a random unseen
active track; when none exists answer cycle-complete and mark nothing;
otherwise mark the track used for this user and send it. -/
def pickNextTrack (db : TrackDb) (uid : Nat) (r : Nat) : PickResult × TrackDb :=
  match get_random_track_for_user db uid r with
  | none => (.cycleComplete, db)
  | some t => (.track t, mark_track_used db uid t.id)

/-- Iterated `pickNextTrack` calls, one per seed, collecting the tracks
actually returned (cycle-complete answers contribute nothing). -/
def pickSeq (uid : Nat) : TrackDb → List Nat → List Track × TrackDb
  | db, [] => ([], db)
  | db, r :: rs =>
    match pickNextTrack db uid r with
    | (.track t, db1) =>
      let rest := pickSeq uid db1 rs
      (t :: rest.1, rest.2)
    | (.cycleComplete, db1) => pickSeq uid db1 rs

/-! ## SQLite delete-broadcast semantics (src/db.py lines 9-55, 226-229) -/

/-- The broadcast-related tables: `broadcasts` rows `(id, text)` and
`broadcast_files` rows `(id, broadcast_id, kind, path)`
(src/db.py lines 34-48). -/
structure SqliteDb where
  broadcasts : List (Nat × String)
  broadcast_files : List (Nat × Nat × String × String)
deriving DecidableEq, Repr

/-- `DELETE FROM broadcasts WHERE id = ?` under SQLite semantics: the
declared `ON DELETE CASCADE` on `broadcast_files.broadcast_id`
(src/db.py line 47) fires only when the executing connection has the
`foreign_keys` pragma enabled. -/
def sqliteDeleteBroadcast (fkEnabled : Bool) (db : SqliteDb) (bid : Nat) : SqliteDb :=
  let db1 : SqliteDb := { db with broadcasts := db.broadcasts.filter (fun b => b.1 ≠ bid) }
  if fkEnabled then
    { db1 with broadcast_files := db1.broadcast_files.filter (fun f => f.2.1 ≠ bid) }
  else db1

/-- SQLite's `foreign_keys` pragma is per-connection and defaults to OFF.
`CREATE_SQL` turns it on only for the connection used by `init_db`
(src/db.py lines 10, 52-55); every db.py operation opens a fresh
`aiosqlite.connect(DB_PATH)` and never re-issues the pragma. -/
def connectionForeignKeysDefault : Bool := false

/-- `delete_broadcast` (src/db.py lines 226-229): runs the DELETE on a fresh
connection (foreign_keys at its default), and touches no file on disk.
The second component is the set of saved attachment files on disk. -/
def delete_broadcast (st : SqliteDb × List String) (bid : Nat) :
    SqliteDb × List String :=
  (sqliteDeleteBroadcast connectionForeignKeysDefault st.1 bid, st.2)

/-! ## String helpers (executable down to the kernel) -/

/-- Split a character list at every occurrence of `sep`, keeping empty
groups, as Python's `str.split("/")` does. -/
def splitChar (sep : Char) : List Char → List (List Char)
  | [] => [[]]
  | c :: cs =>
    let r := splitChar sep cs
    if c = sep then [] :: r
    else
      match r with
      | [] => [[c]]
      | g :: gs => (c :: g) :: gs

/-- Split a string on `/`, as Python's `path.split("/")`. -/
def pySplitSlash (s : String) : List String :=
  (splitChar '/' s.toList).map String.mk

/-- String prefix test over the underlying character lists. -/
def strStartsWith (s pre : String) : Bool :=
  pre.toList.isPrefixOf s.toList

/-- The whitespace characters Python's `str.strip()` removes
(ASCII portion). -/
def isPySpace (c : Char) : Bool :=
  c = ' ' ∨ c = '\t' ∨ c = '\n' ∨ c = '\r' ∨ c = '\x0b' ∨ c = '\x0c'

/-- Python's `str.strip()`: drop leading and trailing whitespace. -/
def pyStrip (s : String) : String :=
  String.mk (((s.toList.dropWhile isPySpace).reverse.dropWhile isPySpace).reverse)

/-! ## Path normalization and restore extraction (src/admin_web.py 386-420) -/

/-- POSIX `os.path.normpath`, as CPython implements it: collapse empty and
`.` components, resolve `..` against a preceding non-`..` component,
keep leading `..` components of a relative path, preserve one or two
leading slashes of an absolute path. -/
def normpath (p : String) : String :=
  if p = "" then "." else
  let initialSlashes : Nat :=
    if strStartsWith p "/" then
      (if strStartsWith p "//" ∧ ¬(strStartsWith p "///" = true) then 2 else 1)
    else 0
  let comps := pySplitSlash p
  let newComps := comps.foldl (fun acc comp =>
    if comp = "" ∨ comp = "." then acc
    else if comp ≠ ".." ∨ (initialSlashes = 0 ∧ acc = []) ∨ acc.getLast? = some ".." then
      acc ++ [comp]
    else acc.dropLast) []
  let joined := String.mk (List.replicate initialSlashes '/') ++ String.intercalate "/" newComps
  if joined = "" then "." else joined

/-- The target path (relative to the working directory) CPython's
`ZipFile.extract(member, ".")` writes: the member name with empty, `.`
and `..` components stripped, joined back with `/` and resolved against
the target directory `"."`. -/
def zipExtractTarget (name : String) : String :=
  String.intercalate "/" ((pySplitSlash name).filter
    (fun x => x ≠ "" ∧ x ≠ "." ∧ x ≠ ".."))

/-- Overwriting file write: drop any existing entry at `path`, append the
new contents. -/
def fsWrite (fs : List (String × String)) (path data : String) :
    List (String × String) :=
  fs.filter (fun e => e.1 ≠ path) ++ [(path, data)]

/-- Read a file back from the modelled file system. -/
def fsRead (fs : List (String × String)) (path : String) : Option String :=
  (fs.find? (fun e => e.1 = path)).map (fun e => e.2)

/-- One iteration of the `restore` extraction loop (src/admin_web.py lines
406-410): normalize the member name, skip it unless the normalized path
starts with the string "uploads", otherwise extract it into the working
directory, overwriting. -/
def restore_entry (fs : List (String × String)) (e : String × String) :
    List (String × String) :=
  if strStartsWith (normpath e.1) "uploads" then fsWrite fs (zipExtractTarget e.1) e.2
  else fs

/-- The whole extraction loop of `restore` over the archive's member list. -/
def restore_extract (fs : List (String × String)) (archive : List (String × String)) :
    List (String × String) :=
  archive.foldl restore_entry fs

/-- Whether a working-directory-relative path lies inside the persisted-file
root `uploads/`. -/
def insideUploadsDir (p : String) : Bool :=
  p == "uploads" || strStartsWith p "uploads/"

/-! ## Temporary-file lifecycle of `restore` (src/admin_web.py 386-420) -/

/-- How a `restore` request ends: soft redirect for a missing file field,
success redirect, or an exception propagating out of the handler. -/
inductive RestoreOutcome where
  | missingRedirect
  | okRedirect
  | raised
deriving DecidableEq, Repr

/-- Observable effects of one `restore` invocation on the temporary file. -/
structure RestoreRun where
  outcome : RestoreOutcome
  tmpCreated : Bool
  tmpRemoved : Bool
deriving DecidableEq, Repr

/-- Control flow of `restore` (src/admin_web.py lines 386-420) as far as the
temporary file is concerned. `filenamePresent` is the guard on
`archive.filename`; `zipOpensOk` is whether `zipfile.ZipFile(tmp_path, "r")`
(and the extraction loop under it) completes without raising; `removeOk` is
whether `os.remove(tmp_path)` succeeds. The `os.remove` is guarded by
`try/except: pass` but there is no `try/finally` around the zip block, so an
exception there propagates before the remove statement is reached. -/
def restore_run (filenamePresent zipOpensOk removeOk : Bool) : RestoreRun :=
  if ¬filenamePresent then
    { outcome := .missingRedirect, tmpCreated := false, tmpRemoved := false }
  else if ¬zipOpensOk then
    { outcome := .raised, tmpCreated := true, tmpRemoved := false }
  else
    { outcome := .okRedirect, tmpCreated := true, tmpRemoved := removeOk }

/-! ## Broadcast compose and fan-out (src/admin_web.py lines 198-357) -/

/-- One transport call `broadcasts_new_submit` makes to the aiogram `Bot`.
A media-group call carries its items (path, caption) inline. -/
inductive Call where
  | photo (path : String) (cap : Option String)
  | mediaGroup (items : List (String × Option String))
  | video (path : String) (cap : Option String)
  | document (path : String) (cap : Option String)
  | audio (path : String) (cap : Option String)
  | message (txt : String)
deriving DecidableEq, Repr

/-- The captions carried by the outgoing items of one transport call:
one per photo/video/document/audio, one per image inside a media group;
a plain text message carries no caption slot. -/
def capsOfCall : Call → List (Option String)
  | .photo _ c => [c]
  | .mediaGroup items => items.map (fun it => it.2)
  | .video _ c => [c]
  | .document _ c => [c]
  | .audio _ c => [c]
  | .message _ => []

/-- All caption slots of a list of attempted calls, in call order
(the Bool records whether the transport accepted the call). -/
def itemCaps (cs : List (Call × Bool)) : List (Option String) :=
  cs.foldr (fun c acc => capsOfCall c.1 ++ acc) []

def isMessage : Call → Bool
  | .message _ => true
  | _ => false

def isPhotoish : Call → Bool
  | .photo _ _ => true
  | .mediaGroup _ => true
  | _ => false

/-- The album items built for `send_media_group` (src/admin_web.py lines
288-298): caption on the `i == 0` item when `full_text` is non-empty,
`None` elsewhere. -/
def groupItems (ft : String) (ip : List String) : List (String × Option String) :=
  ip.enum.map (fun e => (e.2, if e.1 = 0 ∧ ft ≠ "" then some ft else none))

/-- The photo step (src/admin_web.py lines 277-303), wrapped in one
`try/except`. Returns (attempted calls, next oracle index, caption_used,
user_failed). With one photo, `caption_used` is set only after a successful
`send_photo`; with an album it is set while building the media list, before
`send_media_group` is called, so a failing group send still consumes the
caption. -/
def photoStep (ok : Nat → Bool) (ft : String) (ip : List String) :
    List (Call × Bool) × Nat × Bool × Bool :=
  match ip with
  | [] => ([], 0, false, false)
  | [p] =>
    let cap : Option String := if ft = "" then none else some ft
    if ok 0 then ([(.photo p cap, true)], 1, ft ≠ "", false)
    else ([(.photo p cap, false)], 1, false, true)
  | _ :: _ :: _ =>
    let cu : Bool := ft ≠ ""
    if ok 0 then ([(.mediaGroup (groupItems ft ip), true)], 1, cu, false)
    else ([(.mediaGroup (groupItems ft ip), false)], 1, cu, true)

/-- The video loop (src/admin_web.py lines 306-320): each path is sent as an
individual video; the first video takes the caption when it is still unused;
a failing `send_video` falls back to `send_document` with the same path and
caption, and only a failing fallback marks the recipient failed. Arguments:
loop index `i`, oracle counter `k`, `caption_used`, `user_failed` so far. -/
def videoLoop (ok : Nat → Bool) (ft : String) :
    Nat → Nat → Bool → Bool → List String → List (Call × Bool) × Nat × Bool × Bool
  | _, k, cu, fl, [] => ([], k, cu, fl)
  | i, k, cu, fl, p :: rest =>
    let takeCap : Bool := ft ≠ "" ∧ cu = false ∧ i = 0
    let cap : Option String := if takeCap then some ft else none
    let cu1 : Bool := cu || takeCap
    if ok k then
      let r := videoLoop ok ft (i + 1) (k + 1) cu1 fl rest
      ((.video p cap, true) :: r.1, r.2)
    else
      let dOk := ok (k + 1)
      let r := videoLoop ok ft (i + 1) (k + 2) cu1 (fl || !dOk) rest
      ((.video p cap, false) :: (.document p cap, dOk) :: r.1, r.2)

/-- The audio extensions recognized by the file step
(src/admin_web.py line 323). -/
def audioExts : List String := [".mp3", ".ogg", ".wav", ".m4a"]

/-- `os.path.splitext(p)[1]`: the extension of the final path component,
where the leading dots of the component are not separators. -/
def splitextExt (p : String) : String :=
  let base := (pySplitSlash p).getLastD ""
  let cs := base.toList
  let rest := cs.drop (cs.takeWhile (fun c => c = '.')).length
  if rest.contains '.' then
    String.mk ('.' :: (rest.reverse.takeWhile (fun c => c ≠ '.')).reverse)
  else ""

/-- The transport call the file step makes for one path: `send_audio` for
an audio extension, `send_document` otherwise (src/admin_web.py 330-335). -/
def fileCall (p : String) (cap : Option String) : Call :=
  if (splitextExt p).toLower ∈ audioExts then .audio p cap else .document p cap

/-- The file loop (src/admin_web.py lines 322-338): audio extensions go
through `send_audio`, everything else through `send_document`; the first
file takes the caption when it is still unused; a failing send marks the
recipient failed. -/
def fileLoop (ok : Nat → Bool) (ft : String) :
    Nat → Nat → Bool → Bool → List String → List (Call × Bool) × Nat × Bool × Bool
  | _, k, cu, fl, [] => ([], k, cu, fl)
  | i, k, cu, fl, p :: rest =>
    let takeCap : Bool := ft ≠ "" ∧ cu = false ∧ i = 0
    let cap : Option String := if takeCap then some ft else none
    let cu1 : Bool := cu || takeCap
    let good := ok k
    let r := fileLoop ok ft (i + 1) (k + 1) cu1 (fl || !good) rest
    ((fileCall p cap, good) :: r.1, r.2)

/-- The text-only fallback (src/admin_web.py lines 341-346): when no media
was supplied at all and the caption is still unused, send `full_text` as a
plain message. -/
def textFallback (ok : Nat → Bool) (ft : String) (ip vp fp : List String)
    (k : Nat) (cu fl : Bool) : List (Call × Bool) × Bool :=
  if cu = false ∧ ip = [] ∧ vp = [] ∧ fp = [] ∧ ft ≠ "" then
    ([(.message ft, ok k)], fl || !(ok k))
  else ([], fl)

/-- Everything one recipient observes from one fan-out. -/
structure Delivery where
  calls : List (Call × Bool)
  userFailed : Bool
deriving Repr

/-- The per-recipient body of the fan-out loop (src/admin_web.py lines
272-351): photo step, video loop, file loop, text fallback, in that order,
threading the oracle counter, `caption_used` and `user_failed` through. -/
def deliverToUser (ok : Nat → Bool) (ft : String) (ip vp fp : List String) :
    Delivery :=
  let s1 := photoStep ok ft ip
  let s2 := videoLoop ok ft 0 s1.2.1 s1.2.2.1 s1.2.2.2 vp
  let s3 := fileLoop ok ft 0 s2.2.1 s2.2.2.1 s2.2.2.2 fp
  let s4 := textFallback ok ft ip vp fp s3.2.1 s3.2.2.1 s3.2.2.2
  { calls := s1.1 ++ s2.1 ++ s3.1 ++ s4.1, userFailed := s4.2 }

/-- The fan-out loop over the recipient list (src/admin_web.py lines
269-351): recipient `j`'s transport calls answer to the oracle `ok j`;
a failed recipient increments `failed`, everyone else increments `sent`,
and the loop never stops early. Returns (sent, failed, per-user trace). -/
def fanOut (ok : Nat → Nat → Bool) (ft : String) (ip vp fp : List String) :
    Nat → List Nat → Nat × Nat × List (Nat × Delivery)
  | _, [] => (0, 0, [])
  | j, u :: rest =>
    let d := deliverToUser (ok j) ft ip vp fp
    let r := fanOut ok ft ip vp fp (j + 1) rest
    if d.userFailed then (r.1, r.2.1 + 1, (u, d) :: r.2.2)
    else (r.1 + 1, r.2.1, (u, d) :: r.2.2)

/-! ## The compose handler `broadcasts_new_submit`
(src/admin_web.py lines 225-357) -/

/-- An uploaded form file: its client filename and raw contents. -/
structure Upload where
  filename : String
  data : String
deriving DecidableEq, Repr

/-- `_save_files_for_broadcast` (src/admin_web.py lines 198-223): uploads
with an empty filename or empty contents are skipped; the rest are written
under `uploads/broadcasts/<bid>/<kind>/<filename>` with path separators in
the client filename replaced by underscores. Returns the saved paths. -/
def save_files_for_broadcast (bid : Nat) (ups : List Upload) (kind : String) :
    List String :=
  (ups.filter (fun u => u.filename ≠ "" ∧ u.data ≠ "")).map (fun u =>
    "uploads/broadcasts/" ++ toString bid ++ "/" ++ kind ++ "/" ++
      ((u.filename.replace "/" "_").replace "\\" "_"))

/-- The two form-validation failures of `broadcasts_new_submit`
(src/admin_web.py lines 244-248 and 257-261). -/
inductive SubmitError where
  | emptyBroadcast
  | noRecipients
deriving DecidableEq, Repr

/-- Everything `broadcasts_new_submit` persists or sends. -/
structure SubmitResult where
  error : Option SubmitError := none
  createdBroadcast : Option (Nat × String) := none
  fileRows : List (Nat × String × String) := []
  savedPaths : List String := []
  sent : Nat := 0
  failed : Nat := 0
  trace : List (Nat × Delivery) := []
  sentAtStamped : Bool := false

/-- `broadcasts_new_submit` (src/admin_web.py lines 225-357): trim title and
body; reject a wholly empty form; derive `full_text`; reject when there are
no known users; only then create the broadcast row, save the uploads, run
the fan-out over every user, and stamp `sent_at`. `bid` is the autoincrement
id the insert returns. -/
def broadcasts_new_submit (title text : String)
    (images videos files : List Upload) (users : List Nat)
    (ok : Nat → Nat → Bool) (bid : Nat) : SubmitResult :=
  let t := pyStrip title
  let body := pyStrip text
  let hasAnyMedia := images ≠ [] ∨ videos ≠ [] ∨ files ≠ []
  if t = "" ∧ body = "" ∧ ¬hasAnyMedia then { error := some .emptyBroadcast }
  else
    let fullText :=
      if t ≠ "" ∧ body ≠ "" then pyStrip (t ++ "\n\n" ++ body)
      else pyStrip (if t ≠ "" then t else body)
    if users = [] then { error := some .noRecipients }
    else
      let imagePaths := save_files_for_broadcast bid images "photo"
      let videoPaths := save_files_for_broadcast bid videos "video"
      let filePaths := save_files_for_broadcast bid files "file"
      let fan := fanOut ok fullText imagePaths videoPaths filePaths 0 users
      { error := none
        createdBroadcast := some (bid, fullText)
        fileRows :=
          imagePaths.map (fun p => (bid, "photo", p)) ++
          videoPaths.map (fun p => (bid, "video", p)) ++
          filePaths.map (fun p => (bid, "file", p))
        savedPaths := imagePaths ++ videoPaths ++ filePaths
        sent := fan.1
        failed := fan.2.1
        trace := fan.2.2
        sentAtStamped := true }

/-! ## Lemmas about track selection -/

theorem mem_eligibleTracks {db : TrackDb} {uid : Nat} {t : Track} :
    t ∈ eligibleTracks db uid ↔
      t ∈ db.tracks ∧ t.isActive = true ∧ (uid, t.id) ∉ db.used := by
  simp [eligibleTracks, List.mem_filter, and_assoc]

theorem pick_track_cases {db : TrackDb} {uid r : Nat} {t : Track} {db' : TrackDb}
    (h : pickNextTrack db uid r = (.track t, db')) :
    t ∈ db.tracks ∧ t.isActive = true ∧ (uid, t.id) ∉ db.used ∧
      db'.tracks = db.tracks ∧ db'.used = db.used ++ [(uid, t.id)] := by
  have hmain : get_random_track_for_user db uid r = some t ∧
      db' = mark_track_used db uid t.id := by
    cases hg : get_random_track_for_user db uid r with
    | none => simp [pickNextTrack, hg] at h
    | some t0 =>
      simp only [pickNextTrack, hg] at h
      injection h with h1 h2
      injection h1 with h1
      exact ⟨by rw [h1], by rw [← h1]; exact h2.symm⟩
  obtain ⟨hg, hdb⟩ := hmain
  have hel : t ∈ eligibleTracks db uid := by
    have hlen : r % (eligibleTracks db uid).length < (eligibleTracks db uid).length := by
      rcases Nat.eq_zero_or_pos (eligibleTracks db uid).length with h0 | h0
      · simp only [get_random_track_for_user] at hg
        rw [List.getElem?_eq_none (by omega)] at hg
        cases hg
      · exact Nat.mod_lt _ h0
    simp only [get_random_track_for_user] at hg
    rw [List.getElem?_eq_getElem hlen] at hg
    have := Option.some.inj hg
    rw [← this]
    exact List.getElem_mem _
  obtain ⟨h1, h2, h3⟩ := mem_eligibleTracks.mp hel
  subst hdb
  refine ⟨h1, h2, h3, ?_, ?_⟩ <;> simp [mark_track_used, h3]

theorem pick_cycleComplete_state {db : TrackDb} {uid r : Nat} {db' : TrackDb}
    (h : pickNextTrack db uid r = (.cycleComplete, db')) : db' = db := by
  cases hg : get_random_track_for_user db uid r with
  | none =>
    simp only [pickNextTrack, hg] at h
    injection h with h1 h2
    exact h2.symm
  | some t0 => simp [pickNextTrack, hg] at h

theorem pick_cycleComplete_iff {db : TrackDb} {uid r : Nat} :
    (pickNextTrack db uid r).1 = .cycleComplete ↔ eligibleTracks db uid = [] := by
  constructor
  · intro h
    by_contra hne
    have hpos : 0 < (eligibleTracks db uid).length := List.length_pos.mpr hne
    have hlt : r % (eligibleTracks db uid).length < (eligibleTracks db uid).length :=
      Nat.mod_lt _ hpos
    simp [pickNextTrack, get_random_track_for_user, List.getElem?_eq_getElem hlt] at h
  · intro h
    simp [pickNextTrack, get_random_track_for_user, h]

theorem eligibleTracks_eq_nil_iff {db : TrackDb} {uid : Nat} :
    eligibleTracks db uid = [] ↔
      ∀ t ∈ db.tracks, t.isActive = true → (uid, t.id) ∈ db.used := by
  constructor
  · intro h t ht hact
    by_contra hmem
    have : t ∈ eligibleTracks db uid := mem_eligibleTracks.mpr ⟨ht, hact, hmem⟩
    simp [h] at this
  · intro h
    rcases hel : eligibleTracks db uid with _ | ⟨t, rest⟩
    · rfl
    · have : t ∈ eligibleTracks db uid := by rw [hel]; exact List.mem_cons_self _ _
      obtain ⟨ht, hact, hmem⟩ := mem_eligibleTracks.mp this
      exact absurd (h t ht hact) hmem

theorem pickSeq_not_used (uid : Nat) :
    ∀ (rs : List Nat) (db : TrackDb) (t : Track),
      t ∈ (pickSeq uid db rs).1 → (uid, t.id) ∉ db.used := by
  intro rs
  induction rs with
  | nil => intro db t h; simp [pickSeq] at h
  | cons r rs ih =>
    intro db t h
    rw [pickSeq] at h
    rcases hp : pickNextTrack db uid r with ⟨res, db1⟩
    cases res with
    | track t0 =>
      rw [hp] at h
      simp only [List.mem_cons] at h
      rcases h with rfl | h
      · exact (pick_track_cases hp).2.2.1
      · have hnot := ih db1 t h
        have hused : db1.used = db.used ++ [(uid, t0.id)] :=
          (pick_track_cases hp).2.2.2.2
        intro hmem
        exact hnot (by rw [hused]; exact List.mem_append_left _ hmem)
    | cycleComplete =>
      rw [hp] at h
      have : db1 = db := pick_cycleComplete_state hp
      subst this
      exact ih db1 t h

theorem pickSeq_nodup (uid : Nat) :
    ∀ (rs : List Nat) (db : TrackDb),
      (((pickSeq uid db rs).1).map Track.id).Nodup := by
  intro rs
  induction rs with
  | nil => intro db; simp [pickSeq]
  | cons r rs ih =>
    intro db
    rw [pickSeq]
    rcases hp : pickNextTrack db uid r with ⟨res, db1⟩
    cases res with
    | track t0 =>
      simp only [List.map_cons, List.nodup_cons]
      refine ⟨?_, ih db1⟩
      intro hmem
      obtain ⟨t', ht', hid⟩ := List.mem_map.mp hmem
      have hnot := pickSeq_not_used uid rs db1 t' ht'
      have hused : db1.used = db.used ++ [(uid, t0.id)] :=
        (pick_track_cases hp).2.2.2.2
      apply hnot
      rw [hused, hid]
      exact List.mem_append_right _ (List.mem_singleton.mpr rfl)
    | cycleComplete => exact ih db1

/-- Claim C1: as long as the active-track set is not mutated, successive
`pickNextTrack(U)` calls (any random seeds) return pairwise-distinct tracks,
each returned track having been recorded in `used_tracks` for U and drawn
from the active not-yet-used set; the call answers cycle-complete exactly
when every active track is already marked used for U, and in that case it
inserts no UsedMark row (state unchanged). -/
theorem C1_pick_next_track_cycle (db : TrackDb) (uid r : Nat) (rs : List Nat) :
    (((pickSeq uid db rs).1).map Track.id).Nodup ∧
    (∀ t db', pickNextTrack db uid r = (.track t, db') →
      t ∈ db.tracks ∧ t.isActive = true ∧ (uid, t.id) ∉ db.used ∧
        (uid, t.id) ∈ db'.used ∧ db'.tracks = db.tracks) ∧
    ((pickNextTrack db uid r).1 = .cycleComplete ↔
      ∀ t ∈ db.tracks, t.isActive = true → (uid, t.id) ∈ db.used) ∧
    (∀ db', pickNextTrack db uid r = (.cycleComplete, db') → db' = db) := by
  refine ⟨pickSeq_nodup uid rs db, ?_, ?_, ?_⟩
  · intro t db' h
    obtain ⟨h1, h2, h3, h4, h5⟩ := pick_track_cases h
    exact ⟨h1, h2, h3, by rw [h5]; exact List.mem_append_right _ (List.mem_singleton.mpr rfl), h4⟩
  · rw [pick_cycleComplete_iff]; exact eligibleTracks_eq_nil_iff
  · intro db' h; exact pick_cycleComplete_state h

/-! ## Restore guard and temp-file lifecycle -/

theorem fsRead_fsWrite (fs : List (String × String)) (p d : String) :
    fsRead (fsWrite fs p d) p = some d := by
  induction fs with
  | nil => simp [fsRead, fsWrite]
  | cons e rest ih =>
    by_cases he : e.1 = p
    · simp [fsWrite, fsRead, List.filter_cons, he]
    · simp [fsWrite, fsRead, List.filter_cons, he, List.find?]

/-- Claim C4: any archive entry whose normalized path does not start with
the persisted-file root's name "uploads" is skipped by `restore` and
extracts nothing — in particular the entry "../../etc/passwd" writes no
file — while an entry whose normalized path does start with "uploads" is
extracted into the working directory, overwriting any existing file at the
extraction target. -/
theorem C4_restore_path_guard (fs : List (String × String)) (name data : String) :
    (strStartsWith (normpath name) "uploads" = false →
      restore_entry fs (name, data) = fs) ∧
    (restore_entry fs ("../../etc/passwd", data) = fs) ∧
    (strStartsWith (normpath name) "uploads" = true →
      restore_entry fs (name, data) = fsWrite fs (zipExtractTarget name) data ∧
      fsRead (restore_entry fs (name, data)) (zipExtractTarget name) = some data) := by
  refine ⟨?_, ?_, ?_⟩
  · intro h; simp [restore_entry, h]
  · have h : strStartsWith (normpath "../../etc/passwd") "uploads" = false := by decide
    simp [restore_entry, h]
  · intro h
    refine ⟨by simp [restore_entry, h], ?_⟩
    simp [restore_entry, h, fsRead_fsWrite]

/-- Claim C10: the restore containment check is a textual string-prefix
test on the normalized entry path, not a directory-containment test: the
entries "uploads_evil/x" and "uploadsfile.txt" pass the guard and are
extracted into the working directory even though their targets lie outside
the uploads directory. -/
theorem C10_guard_is_textual_prefix (fs : List (String × String)) (data : String) :
    (∀ name, (strStartsWith (normpath name) "uploads" = true →
      restore_entry fs (name, data) = fsWrite fs (zipExtractTarget name) data)) ∧
    strStartsWith (normpath "uploads_evil/x") "uploads" = true ∧
    insideUploadsDir (zipExtractTarget "uploads_evil/x") = false ∧
    restore_entry fs ("uploads_evil/x", data) = fsWrite fs "uploads_evil/x" data ∧
    strStartsWith (normpath "uploadsfile.txt") "uploads" = true ∧
    insideUploadsDir (zipExtractTarget "uploadsfile.txt") = false ∧
    restore_entry fs ("uploadsfile.txt", data) = fsWrite fs "uploadsfile.txt" data := by
  have h1 : strStartsWith (normpath "uploads_evil/x") "uploads" = true := by decide
  have h2 : strStartsWith (normpath "uploadsfile.txt") "uploads" = true := by decide
  have t1 : zipExtractTarget "uploads_evil/x" = "uploads_evil/x" := by decide
  have t2 : zipExtractTarget "uploadsfile.txt" = "uploadsfile.txt" := by decide
  refine ⟨?_, h1, by decide, ?_, h2, by decide, ?_⟩
  · intro name h; simp [restore_entry, h]
  · rw [show restore_entry fs ("uploads_evil/x", data) =
        fsWrite fs (zipExtractTarget "uploads_evil/x") data by simp [restore_entry, h1], t1]
  · rw [show restore_entry fs ("uploadsfile.txt", data) =
        fsWrite fs (zipExtractTarget "uploadsfile.txt") data by simp [restore_entry, h2], t2]

/-- A database holding one broadcast (id 1) that owns one attachment row,
whose file is saved on disk. -/
def exampleBroadcastDb : SqliteDb :=
  { broadcasts := [(1, "hello")],
    broadcast_files := [(10, 1, "photo", "uploads/broadcasts/1/photo/a.jpg")] }

/-- Claim C5 (code bug): `delete_broadcast 1` removes the broadcast row and
leaves the saved file on disk, but the BroadcastAttachment row survives: the
`ON DELETE CASCADE` declared in the schema only fires on a connection with
`PRAGMA foreign_keys = ON`, and db.py sets that pragma only on `init_db`'s
connection — every other connection uses SQLite's default (off). Under an
fk-enabled connection the same DELETE would have cascaded. -/
theorem C5_delete_broadcast_does_not_cascade :
    (delete_broadcast (exampleBroadcastDb, ["uploads/broadcasts/1/photo/a.jpg"]) 1).1.broadcasts
        = [] ∧
    (delete_broadcast (exampleBroadcastDb, ["uploads/broadcasts/1/photo/a.jpg"]) 1).1.broadcast_files
        = [(10, 1, "photo", "uploads/broadcasts/1/photo/a.jpg")] ∧
    (delete_broadcast (exampleBroadcastDb, ["uploads/broadcasts/1/photo/a.jpg"]) 1).2
        = ["uploads/broadcasts/1/photo/a.jpg"] ∧
    (sqliteDeleteBroadcast true exampleBroadcastDb 1).broadcast_files = [] := by
  refine ⟨?_, ?_, ?_, ?_⟩ <;> decide

/-- Claim C9 counterexample: a restore invocation that is given archive
bytes which fail to open as a zip (`zipfile.ZipFile` raises) ends with the
exception propagating and the temporary file never removed — there is no
try/finally around the zip block, `os.remove` is only reached on the
success path. -/
theorem C9_counterexample_bad_zip_leaks_tmpfile :
    (restore_run true false true).tmpCreated = true ∧
    (restore_run true false true).tmpRemoved = false ∧
    (restore_run true false true).outcome = .raised := by
  exact ⟨rfl, rfl, rfl⟩

/-- Claim C9 (amended): when the uploaded bytes open and extract as a zip
archive successfully, the temporary file is removed (best-effort: a failing
`os.remove` is swallowed and the request still succeeds) before the handler
returns; when opening or reading the bytes as a zip raises, the exception
propagates and the temporary file is not removed; a missing filename field
creates no temporary file at all. -/
theorem C9_tmpfile_removed_on_success_path (zipOk removeOk : Bool) :
    ((restore_run true true removeOk).tmpRemoved = removeOk ∧
      (restore_run true true removeOk).outcome = .okRedirect) ∧
    ((restore_run true zipOk removeOk).tmpRemoved = (zipOk && removeOk)) ∧
    ((restore_run true zipOk removeOk).outcome = .raised ↔ zipOk = false) ∧
    ((restore_run false zipOk removeOk).tmpCreated = false) := by
  cases zipOk <;> cases removeOk <;> exact ⟨⟨rfl, rfl⟩, rfl, by decide, rfl⟩

/-! ## Fan-out counting and stamping -/

theorem fanOut_counts (ok : Nat → Nat → Bool) (ft : String) (ip vp fp : List String) :
    ∀ (users : List Nat) (j : Nat),
      (fanOut ok ft ip vp fp j users).1 + (fanOut ok ft ip vp fp j users).2.1
          = users.length ∧
      ((fanOut ok ft ip vp fp j users).2.2).map (fun e => e.1) = users := by
  intro users
  induction users with
  | nil => intro j; simp [fanOut]
  | cons u rest ih =>
    intro j
    have h := ih (j + 1)
    by_cases hf : (deliverToUser (ok j) ft ip vp fp).userFailed
    · simp [fanOut, hf, h.1, h.2]; omega
    · simp [fanOut, hf, h.2]; omega

/-- Claim C3: a delivery failure for one recipient never aborts the fan-out
loop — every recipient of the list is processed (the per-user trace lists
exactly the recipients, in order) and counted in exactly one of `sent` or
`failed`, so `sent + failed` equals the number of recipients for every
failure oracle; and whenever `broadcasts_new_submit` reaches the fan-out
(no validation error), it stamps the broadcast's `sent_at` afterwards,
regardless of how many recipients failed. -/
theorem C3_fanout_isolation_and_stamp (ok : Nat → Nat → Bool)
    (ft title text : String) (ip vp fp : List String)
    (images videos files : List Upload) (users : List Nat) (j bid : Nat) :
    (fanOut ok ft ip vp fp j users).1 + (fanOut ok ft ip vp fp j users).2.1
        = users.length ∧
    ((fanOut ok ft ip vp fp j users).2.2).map (fun e => e.1) = users ∧
    ((broadcasts_new_submit title text images videos files users ok bid).error = none →
      (broadcasts_new_submit title text images videos files users ok bid).sentAtStamped
          = true) := by
  refine ⟨(fanOut_counts ok ft ip vp fp users j).1,
          (fanOut_counts ok ft ip vp fp users j).2, ?_⟩
  intro h
  simp only [broadcasts_new_submit] at h ⊢
  by_cases h1 : (pyStrip title = "" ∧ pyStrip text = "" ∧
      ¬(images ≠ [] ∨ videos ≠ [] ∨ files ≠ []))
  · rw [if_pos h1] at h; simp at h
  · rw [if_neg h1] at h ⊢
    by_cases h2 : users = []
    · rw [if_pos h2] at h; simp at h
    · rw [if_neg h2]

/-! ## Video fallback semantics (C8) -/

/-- Shape of the video step's transport trace: each video path produces one
individual `send_video` call; a refused video is immediately re-sent as a
`send_document` with the same path and the same caption; the failure flag
is raised exactly by a block whose document fallback is also refused. -/
inductive VideoTrace : List String → List (Call × Bool) → Bool → Prop where
  | nil : VideoTrace [] [] false
  | sent (p : String) (c : Option String) {rest : List String}
      {cs : List (Call × Bool)} {f : Bool} :
      VideoTrace rest cs f →
      VideoTrace (p :: rest) ((.video p c, true) :: cs) f
  | fallbackSent (p : String) (c : Option String) {rest : List String}
      {cs : List (Call × Bool)} {f : Bool} :
      VideoTrace rest cs f →
      VideoTrace (p :: rest) ((.video p c, false) :: (.document p c, true) :: cs) f
  | fallbackFailed (p : String) (c : Option String) {rest : List String}
      {cs : List (Call × Bool)} {f : Bool} :
      VideoTrace rest cs f →
      VideoTrace (p :: rest) ((.video p c, false) :: (.document p c, false) :: cs) true

/-- The path of an attempted video call, `none` for every other call. -/
def videoPathOf : Call × Bool → Option String
  | (.video p _, _) => some p
  | _ => none

theorem videoTrace_paths {vp : List String} {cs : List (Call × Bool)} {f : Bool}
    (h : VideoTrace vp cs f) : cs.filterMap videoPathOf = vp := by
  induction h with
  | nil => rfl
  | sent p c _ ih => simp [videoPathOf, ih]
  | fallbackSent p c _ ih => simp [videoPathOf, ih]
  | fallbackFailed p c _ ih => simp [videoPathOf, ih]

theorem videoTrace_failed {vp : List String} {cs : List (Call × Bool)}
    (h : VideoTrace vp cs true) :
    ∃ p c, (Call.video p c, false) ∈ cs ∧ (Call.document p c, false) ∈ cs := by
  generalize hf : true = f at h
  induction h with
  | nil => cases hf
  | sent p c _ ih =>
    obtain ⟨q, d, h1, h2⟩ := ih hf
    exact ⟨q, d, List.mem_cons_of_mem _ h1, List.mem_cons_of_mem _ h2⟩
  | fallbackSent p c _ ih =>
    obtain ⟨q, d, h1, h2⟩ := ih hf
    exact ⟨q, d, List.mem_cons_of_mem _ (List.mem_cons_of_mem _ h1),
      List.mem_cons_of_mem _ (List.mem_cons_of_mem _ h2)⟩
  | fallbackFailed p c _ _ =>
    exact ⟨p, c, List.mem_cons_self _ _,
      List.mem_cons_of_mem _ (List.mem_cons_self _ _)⟩

theorem videoLoop_trace_aux (ok : Nat → Bool) (ft : String) :
    ∀ (vp : List String) (i k : Nat) (cu fl : Bool),
      ∃ f, VideoTrace vp (videoLoop ok ft i k cu fl vp).1 f ∧
        (videoLoop ok ft i k cu fl vp).2.2.2 = (fl || f) := by
  intro vp
  induction vp with
  | nil => intro i k cu fl; exact ⟨false, VideoTrace.nil, by simp [videoLoop]⟩
  | cons p rest ih =>
    intro i k cu fl
    by_cases hv : ok k = true
    · obtain ⟨f, htr, hfl⟩ := ih (i + 1) (k + 1)
        (cu || decide (ft ≠ "" ∧ cu = false ∧ i = 0)) fl
      exact ⟨f, by simpa [videoLoop, hv] using VideoTrace.sent p _ htr,
        by simpa [videoLoop, hv] using hfl⟩
    · replace hv : ok k = false := by simpa using hv
      by_cases hd : ok (k + 1) = true
      · obtain ⟨f, htr, hfl⟩ := ih (i + 1) (k + 2)
          (cu || decide (ft ≠ "" ∧ cu = false ∧ i = 0)) fl
        refine ⟨f, by simpa [videoLoop, hv, hd] using VideoTrace.fallbackSent p _ htr, ?_⟩
        simpa [videoLoop, hv, hd] using hfl
      · replace hd : ok (k + 1) = false := by simpa using hd
        obtain ⟨f, htr, hfl⟩ := ih (i + 1) (k + 2)
          (cu || decide (ft ≠ "" ∧ cu = false ∧ i = 0)) true
        refine ⟨true, by simpa [videoLoop, hv, hd] using VideoTrace.fallbackFailed p _ htr, ?_⟩
        simpa [videoLoop, hv, hd] using hfl

/-- Claim C8: in the video step, every video path is sent as an individual
video item (in order); a video call the transport refuses is immediately
re-sent as a generic document with the same file and the same caption; and
the step reports the recipient failed only when such a document fallback is
also refused. -/
theorem C8_video_fallback (ok : Nat → Bool) (ft : String) (vp : List String)
    (i k : Nat) (cu : Bool) :
    ∃ f, VideoTrace vp (videoLoop ok ft i k cu false vp).1 f ∧
      (videoLoop ok ft i k cu false vp).2.2.2 = f ∧
      ((videoLoop ok ft i k cu false vp).1).filterMap videoPathOf = vp ∧
      (f = true → ∃ p c,
        (Call.video p c, false) ∈ (videoLoop ok ft i k cu false vp).1 ∧
        (Call.document p c, false) ∈ (videoLoop ok ft i k cu false vp).1) := by
  obtain ⟨f, htr, hfl⟩ := videoLoop_trace_aux ok ft vp i k cu false
  refine ⟨f, htr, by simpa using hfl, videoTrace_paths htr, ?_⟩
  intro hf
  exact videoTrace_failed (hf ▸ htr)

/-! ## Photo arrangement (C7) -/

theorem videoLoop_calls_shape (ok : Nat → Bool) (ft : String) :
    ∀ (vp : List String) (i k : Nat) (cu fl : Bool),
      ∀ c ∈ (videoLoop ok ft i k cu fl vp).1,
        isPhotoish c.1 = false ∧ isMessage c.1 = false := by
  intro vp
  induction vp with
  | nil => intro i k cu fl c hc; simp [videoLoop] at hc
  | cons p rest ih =>
    intro i k cu fl c hc
    by_cases hv : ok k = true
    · simp [videoLoop, hv] at hc
      rcases hc with rfl | hc
      · exact ⟨rfl, rfl⟩
      · exact ih _ _ _ _ c hc
    · replace hv : ok k = false := by simpa using hv
      simp [videoLoop, hv] at hc
      rcases hc with rfl | rfl | hc
      · exact ⟨rfl, rfl⟩
      · exact ⟨rfl, rfl⟩
      · exact ih _ _ _ _ c hc

theorem fileLoop_calls_shape (ok : Nat → Bool) (ft : String) :
    ∀ (fp : List String) (i k : Nat) (cu fl : Bool),
      ∀ c ∈ (fileLoop ok ft i k cu fl fp).1,
        isPhotoish c.1 = false ∧ isMessage c.1 = false := by
  intro fp
  induction fp with
  | nil => intro i k cu fl c hc; simp [fileLoop] at hc
  | cons p rest ih =>
    intro i k cu fl c hc
    simp [fileLoop] at hc
    rcases hc with rfl | hc
    · by_cases ha : (splitextExt p).toLower ∈ audioExts <;>
        simp [fileCall, ha, isPhotoish, isMessage]
    · exact ih _ _ _ _ c hc

theorem textFallback_skip_with_media (ok : Nat → Bool) (ft : String)
    (ip vp fp : List String) (k : Nat) (cu fl : Bool) (h : ip ≠ []) :
    (textFallback ok ft ip vp fp k cu fl).1 = [] := by
  simp [textFallback, h]

theorem photoStep_calls_photoish (ok : Nat → Bool) (ft : String) (ip : List String) :
    ∀ c ∈ (photoStep ok ft ip).1, isPhotoish c.1 = true ∧ isMessage c.1 = false := by
  intro c hc
  match ip with
  | [] => simp [photoStep] at hc
  | [p] =>
    by_cases h0 : ok 0 = true
    · simp [photoStep, h0] at hc
      subst hc; exact ⟨rfl, rfl⟩
    · replace h0 : ok 0 = false := by simpa using h0
      simp [photoStep, h0] at hc
      subst hc; exact ⟨rfl, rfl⟩
  | p :: q :: rest =>
    by_cases h0 : ok 0 = true
    · simp [photoStep, h0] at hc
      subst hc; exact ⟨rfl, rfl⟩
    · replace h0 : ok 0 = false := by simpa using h0
      simp [photoStep, h0] at hc
      subst hc; exact ⟨rfl, rfl⟩

theorem textFallback_calls_message (ok : Nat → Bool) (ft : String)
    (ip vp fp : List String) (k : Nat) (cu fl : Bool) :
    ∀ c ∈ (textFallback ok ft ip vp fp k cu fl).1,
      isMessage c.1 = true ∧ isPhotoish c.1 = false := by
  intro c hc
  simp only [textFallback] at hc
  split at hc
  · simp at hc
    subst hc
    exact ⟨rfl, rfl⟩
  · simp at hc

theorem deliver_filter_photoish (ok : Nat → Bool) (ft : String)
    (ip vp fp : List String) :
    (deliverToUser ok ft ip vp fp).calls.filter (fun c => isPhotoish c.1) =
      (photoStep ok ft ip).1 := by
  simp only [deliverToUser, List.filter_append]
  rw [List.filter_eq_self.mpr (fun c hc => (photoStep_calls_photoish ok ft ip c hc).1),
    List.filter_eq_nil_iff.mpr (fun c hc => by
      simpa using (videoLoop_calls_shape ok ft vp _ _ _ _ c hc).1),
    List.filter_eq_nil_iff.mpr (fun c hc => by
      simpa using (fileLoop_calls_shape ok ft fp _ _ _ _ c hc).1),
    List.filter_eq_nil_iff.mpr (fun c hc => by
      simpa using (textFallback_calls_message ok ft ip vp fp _ _ _ c hc).2)]
  simp

theorem deliver_no_message_with_photos (ok : Nat → Bool) (ft : String)
    (ip vp fp : List String) (h : ip ≠ []) :
    (deliverToUser ok ft ip vp fp).calls.filter (fun c => isMessage c.1) = [] := by
  simp only [deliverToUser, List.filter_append]
  rw [List.filter_eq_nil_iff.mpr (fun c hc => by
      simpa using (photoStep_calls_photoish ok ft ip c hc).2),
    List.filter_eq_nil_iff.mpr (fun c hc => by
      simpa using (videoLoop_calls_shape ok ft vp _ _ _ _ c hc).2),
    List.filter_eq_nil_iff.mpr (fun c hc => by
      simpa using (fileLoop_calls_shape ok ft fp _ _ _ _ c hc).2),
    textFallback_skip_with_media ok ft ip vp fp _ _ _ h]
  simp

theorem enumFrom_caps_none (ft : String) :
    ∀ (l : List String) (n : Nat),
      ((List.enumFrom (n + 1) l).map
        (fun e => (e.2, if e.1 = 0 ∧ ft ≠ "" then some ft else none))).map
          (fun it => it.2) = List.replicate l.length none := by
  intro l
  induction l with
  | nil => intro n; rfl
  | cons p rest ih =>
    intro n
    simp only [List.enumFrom, List.map_cons, List.length_cons, List.replicate_succ]
    rw [ih (n + 1)]
    simp

theorem enumFrom_paths (ft : String) :
    ∀ (l : List String) (n : Nat),
      ((List.enumFrom n l).map
        (fun e => (e.2, if e.1 = 0 ∧ ft ≠ "" then some ft else none))).map
          (fun it => it.1) = l := by
  intro l
  induction l with
  | nil => intro n; rfl
  | cons p rest ih =>
    intro n
    simp only [List.enumFrom, List.map_cons]
    rw [ih (n + 1)]

theorem groupItems_caps (ft p : String) (rest : List String) :
    (groupItems ft (p :: rest)).map (fun it => it.2) =
      (if ft = "" then none else some ft) :: List.replicate rest.length none := by
  simp only [groupItems, List.enum, List.enumFrom, List.map_cons]
  rw [show (0 : Nat) + 1 = 1 from rfl] at *
  have h := enumFrom_caps_none ft rest 0
  rw [show (0 : Nat) + 1 = 1 from rfl] at h
  rw [h]
  by_cases hft : ft = "" <;> simp [hft]

theorem groupItems_paths (ft : String) (ip : List String) :
    (groupItems ft ip).map (fun it => it.1) = ip := by
  simp only [groupItems, List.enum]
  exact enumFrom_paths ft ip 0

/-- Claim C7: in every recipient's delivery, the photo-shaped calls are
exactly those of the photo step: none when there are zero photo paths; a
single `send_photo` carrying the caption (when `full_text` is non-empty,
which at the photo step always means not-yet-used) for exactly one path;
one grouped-album call with the caption only on the first image for two or
more paths; and when photos are present no plain-text message is sent to
that recipient. -/
theorem C7_photo_arrangement (ok : Nat → Bool) (ft : String) (ip vp fp : List String) :
    ((deliverToUser ok ft ip vp fp).calls.filter (fun c => isPhotoish c.1) =
      (photoStep ok ft ip).1) ∧
    (ip = [] → (photoStep ok ft ip).1 = []) ∧
    (∀ p, ip = [p] → ∃ b, (photoStep ok ft ip).1 =
      [(.photo p (if ft = "" then none else some ft), b)]) ∧
    (∀ p q rest, ip = p :: q :: rest → ∃ b,
      (photoStep ok ft ip).1 = [(.mediaGroup (groupItems ft ip), b)] ∧
      (groupItems ft ip).map (fun it => it.2) =
        (if ft = "" then none else some ft) :: List.replicate (ip.length - 1) none ∧
      (groupItems ft ip).map (fun it => it.1) = ip) ∧
    (ip ≠ [] →
      (deliverToUser ok ft ip vp fp).calls.filter (fun c => isMessage c.1) = []) := by
  refine ⟨deliver_filter_photoish ok ft ip vp fp, ?_, ?_, ?_,
    deliver_no_message_with_photos ok ft ip vp fp⟩
  · intro h; subst h; rfl
  · intro p h
    subst h
    by_cases h0 : ok 0 = true
    · exact ⟨true, by simp [photoStep, h0]⟩
    · replace h0 : ok 0 = false := by simpa using h0
      exact ⟨false, by simp [photoStep, h0]⟩
  · intro p q rest h
    subst h
    have hcaps := groupItems_caps ft p (q :: rest)
    by_cases h0 : ok 0 = true
    · exact ⟨true, by simp [photoStep, h0], by simpa using hcaps, groupItems_paths ft _⟩
    · replace h0 : ok 0 = false := by simpa using h0
      exact ⟨false, by simp [photoStep, h0], by simpa using hcaps, groupItems_paths ft _⟩

/-! ## Caption placement (C2) -/

theorem itemCaps_cons (c : Call × Bool) (cs : List (Call × Bool)) :
    itemCaps (c :: cs) = capsOfCall c.1 ++ itemCaps cs := rfl

theorem itemCaps_append (a b : List (Call × Bool)) :
    itemCaps (a ++ b) = itemCaps a ++ itemCaps b := by
  induction a with
  | nil => rfl
  | cons c rest ih => simp [itemCaps_cons, ih]

theorem capsOfCall_fileCall (p : String) (cap : Option String) :
    capsOfCall (fileCall p cap) = [cap] := by
  by_cases ha : (splitextExt p).toLower ∈ audioExts <;> simp [fileCall, ha, capsOfCall]

theorem itemCaps_map_none {α : Type} (f : α → Call × Bool)
    (h : ∀ a, capsOfCall (f a).1 = [none]) (l : List α) :
    itemCaps (l.map f) = List.replicate l.length none := by
  induction l with
  | nil => rfl
  | cons a rest ih => simp [itemCaps_cons, h a, ih, List.replicate_succ]

theorem videoLoop_allok_capUsed (ok : Nat → Bool) (hok : ∀ k, ok k = true)
    (ft : String) :
    ∀ (vp : List String) (i k : Nat) (fl : Bool),
      videoLoop ok ft i k true fl vp =
        (vp.map (fun p => (Call.video p none, true)), k + vp.length, true, fl) := by
  intro vp
  induction vp with
  | nil => intro i k fl; simp [videoLoop]
  | cons p rest ih =>
    intro i k fl
    simp [videoLoop, hok k, ih (i + 1) (k + 1) fl]
    omega

theorem fileLoop_allok_capUsed (ok : Nat → Bool) (hok : ∀ k, ok k = true)
    (ft : String) :
    ∀ (fp : List String) (i k : Nat) (fl : Bool),
      fileLoop ok ft i k true fl fp =
        (fp.map (fun p => (fileCall p none, true)), k + fp.length, true, fl) := by
  intro fp
  induction fp with
  | nil => intro i k fl; simp [fileLoop]
  | cons p rest ih =>
    intro i k fl
    simp [fileLoop, hok k, ih (i + 1) (k + 1) fl]
    omega

theorem videoLoop_allok_first (ok : Nat → Bool) (hok : ∀ k, ok k = true)
    (ft : String) (hft : ft ≠ "") (p : String) (rest : List String)
    (k : Nat) (fl : Bool) :
    videoLoop ok ft 0 k false fl (p :: rest) =
      ((Call.video p (some ft), true) :: rest.map (fun q => (Call.video q none, true)),
        k + (rest.length + 1), true, fl) := by
  simp [videoLoop, hok k, hft, videoLoop_allok_capUsed ok hok ft rest 1 (k + 1) fl]
  omega

theorem fileLoop_allok_first (ok : Nat → Bool) (hok : ∀ k, ok k = true)
    (ft : String) (hft : ft ≠ "") (p : String) (rest : List String)
    (k : Nat) (fl : Bool) :
    fileLoop ok ft 0 k false fl (p :: rest) =
      ((fileCall p (some ft), true) :: rest.map (fun q => (fileCall q none, true)),
        k + (rest.length + 1), true, fl) := by
  simp [fileLoop, hok k, hft, fileLoop_allok_capUsed ok hok ft rest 1 (k + 1) fl]
  omega

/-- The caption placement property of one recipient's delivery: with no
attachment at all, `full_text` goes out as exactly one standalone text
message; with attachments, the caption slots of the attempted items are
`full_text` on the very first item (the first item of the highest-priority
non-empty class: photos, then videos, then files) and empty on every later
item, and no standalone text message is sent. -/
def CapSpec (ok : Nat → Bool) (ft : String) (ip vp fp : List String) : Prop :=
  (ip = [] ∧ vp = [] ∧ fp = [] →
    (deliverToUser ok ft ip vp fp).calls = [(Call.message ft, true)]) ∧
  (¬(ip = [] ∧ vp = [] ∧ fp = []) →
    (∃ n, itemCaps (deliverToUser ok ft ip vp fp).calls =
      some ft :: List.replicate n none) ∧
    (deliverToUser ok ft ip vp fp).calls.filter (fun c => isMessage c.1) = [])

theorem textFallback_skip_any_media (ok : Nat → Bool) (ft : String)
    (ip vp fp : List String) (k : Nat) (cu fl : Bool)
    (h : ¬(ip = [] ∧ vp = [] ∧ fp = [])) :
    (textFallback ok ft ip vp fp k cu fl).1 = [] := by
  have hnc : ¬(cu = false ∧ ip = [] ∧ vp = [] ∧ fp = [] ∧ ft ≠ "") := by
    rintro ⟨-, h1, h2, h3, -⟩
    exact h ⟨h1, h2, h3⟩
  simp only [textFallback, if_neg hnc]

theorem deliver_no_message_with_media (ok : Nat → Bool) (ft : String)
    (ip vp fp : List String) (h : ¬(ip = [] ∧ vp = [] ∧ fp = [])) :
    (deliverToUser ok ft ip vp fp).calls.filter (fun c => isMessage c.1) = [] := by
  simp only [deliverToUser, List.filter_append]
  rw [List.filter_eq_nil_iff.mpr (fun c hc => by
      simpa using (photoStep_calls_photoish ok ft ip c hc).2),
    List.filter_eq_nil_iff.mpr (fun c hc => by
      simpa using (videoLoop_calls_shape ok ft vp _ _ _ _ c hc).2),
    List.filter_eq_nil_iff.mpr (fun c hc => by
      simpa using (fileLoop_calls_shape ok ft fp _ _ _ _ c hc).2),
    textFallback_skip_any_media ok ft ip vp fp _ _ _ h]
  simp

/-- Claim C2 (amended): for every recipient whose transport accepts every
call, a non-empty `full_text` is attached as the caption of exactly one
outgoing item — the first item of the highest-priority non-empty class
among photos, videos, files — every later item of that delivery carries no
caption, and when there is no attachment at all `full_text` is sent as one
standalone text message (and no text message is sent otherwise). -/
theorem itemCaps_nil : itemCaps ([] : List (Call × Bool)) = [] := rfl

theorem C2_caption_used_exactly_once (ok : Nat → Bool) (ft : String)
    (ip vp fp : List String) (hft : ft ≠ "") (hok : ∀ k, ok k = true) :
    CapSpec ok ft ip vp fp := by
  constructor
  · rintro ⟨rfl, rfl, rfl⟩
    simp [deliverToUser, photoStep, videoLoop, fileLoop, textFallback, hft, hok 0]
  · intro hmedia
    refine ⟨?_, deliver_no_message_with_media ok ft ip vp fp hmedia⟩
    rcases hip : ip with _ | ⟨p, ip'⟩
    · rcases hvp : vp with _ | ⟨q, vp'⟩
      · rcases hfp : fp with _ | ⟨w, fp'⟩
        · subst hip hvp hfp
          exact (hmedia ⟨rfl, rfl, rfl⟩).elim
        · -- files only: the first file takes the caption
          refine ⟨fp'.length, ?_⟩
          simp only [deliverToUser, photoStep, videoLoop,
            fileLoop_allok_first ok hok ft hft w fp' 0 false,
            textFallback_skip_any_media ok ft [] [] (w :: fp') _ _ _ (by simp),
            List.append_nil, List.nil_append, itemCaps_cons, itemCaps_append,
            capsOfCall_fileCall,
            itemCaps_map_none (fun q0 => (fileCall q0 none, true))
              (fun q0 => capsOfCall_fileCall q0 none) fp', itemCaps_nil,
            List.singleton_append]
      · -- no photos, some videos: the first video takes the caption
        refine ⟨vp'.length + fp.length, ?_⟩
        simp only [deliverToUser, photoStep,
          videoLoop_allok_first ok hok ft hft,
          fileLoop_allok_capUsed ok hok ft,
          textFallback_skip_any_media ok ft [] (q :: vp') fp _ _ _ (by simp),
          List.append_nil, List.nil_append, itemCaps_cons, itemCaps_append,
          capsOfCall,
          itemCaps_map_none (fun q0 => (Call.video q0 none, true)) (fun _ => rfl) vp',
          itemCaps_map_none (fun q0 => (fileCall q0 none, true))
            (fun q0 => capsOfCall_fileCall q0 none) fp, itemCaps_nil]
        rw [List.replicate_add, List.singleton_append, List.cons_append]
    · -- photos present: the photo step takes the caption
      have hphoto : ∃ n1, itemCaps (photoStep ok ft (p :: ip')).1 =
          some ft :: List.replicate n1 none ∧
          (photoStep ok ft (p :: ip')).2.2.1 = true ∧
          (photoStep ok ft (p :: ip')).2.2.2 = false := by
        rcases ip' with _ | ⟨p2, ip''⟩
        · refine ⟨0, ?_, ?_, ?_⟩ <;>
            simp [photoStep, hok 0, hft, itemCaps_cons, capsOfCall, itemCaps_nil]
        · refine ⟨(p2 :: ip'').length, ?_, ?_, ?_⟩
          · have hg := groupItems_caps ft p (p2 :: ip'')
            simp [photoStep, hok 0, hft, itemCaps_cons, capsOfCall, itemCaps_nil, hg]
          · simp [photoStep, hok 0, hft]
          · simp [photoStep, hok 0]
      obtain ⟨n1, hcaps, hcu, hfl⟩ := hphoto
      refine ⟨n1 + (vp.length + fp.length), ?_⟩
      simp only [deliverToUser, hcu, hfl,
        videoLoop_allok_capUsed ok hok ft,
        fileLoop_allok_capUsed ok hok ft,
        textFallback_skip_any_media ok ft (p :: ip') vp fp _ _ _ (by simp),
        List.append_nil, itemCaps_append, hcaps,
        itemCaps_map_none (fun q0 => (Call.video q0 none, true)) (fun _ => rfl) vp,
        itemCaps_map_none (fun q0 => (fileCall q0 none, true))
          (fun q0 => capsOfCall_fileCall q0 none) fp]
      rw [List.replicate_add, List.replicate_add, List.cons_append, List.cons_append,
        List.append_assoc]

/-- Claim C2 witness: one photo, no other media, non-empty text, an
all-accepting transport. -/
theorem C2_caption_witness :
    CapSpec (fun _ => true) "t" ["p"] [] [] :=
  C2_caption_used_exactly_once (fun _ => true) "t" ["p"] [] []
    (by decide) (fun _ => rfl)

/-- The transport oracle of the C2 counterexample: the first call of the
recipient (the single `send_photo`) raises, every later call succeeds. -/
def cexOracle : Nat → Bool := fun k => decide (k ≠ 0)

/-- Claim C2 counterexample: with one photo, one video, non-empty text and
a transport that refuses the photo call, the caption `full_text` is
attached to two attempted outgoing items (the failed photo and then the
first video — the code only sets `caption_used` after a successful single
`send_photo`), so it is not attached to exactly one item. -/
theorem C2_counterexample_caption_twice :
    itemCaps (deliverToUser cexOracle "t" ["p"] ["v"] []).calls
        = [some "t", some "t"] ∧
    ¬((itemCaps (deliverToUser cexOracle "t" ["p"] ["v"] []).calls).count
        (some "t") = 1) := by
  constructor
  · rfl
  · decide

/-! ## Recipient check before persisting (C6) -/

/-- Claim C6 (amended): every compose call with non-trivial content (some
of trimmed title, trimmed body, or an upload list non-empty) made when the
set of known users is empty fails with the "no recipients" validation error
and persists nothing: no Broadcast row, no attachment row, no saved file,
no fan-out, no `sent_at` stamp — the recipient check runs before the
Broadcast row is created. (A wholly empty form fails with the
"empty broadcast" error instead, equally persisting nothing.) -/
theorem C6_no_recipients_persists_nothing (title text : String)
    (images videos files : List Upload) (ok : Nat → Nat → Bool) (bid : Nat)
    (hcontent : ¬(pyStrip title = "" ∧ pyStrip text = "" ∧
      ¬(images ≠ [] ∨ videos ≠ [] ∨ files ≠ []))) :
    (broadcasts_new_submit title text images videos files [] ok bid).error
        = some SubmitError.noRecipients ∧
    (broadcasts_new_submit title text images videos files [] ok bid).createdBroadcast
        = none ∧
    (broadcasts_new_submit title text images videos files [] ok bid).fileRows = [] ∧
    (broadcasts_new_submit title text images videos files [] ok bid).savedPaths = [] ∧
    (broadcasts_new_submit title text images videos files [] ok bid).trace = [] ∧
    (broadcasts_new_submit title text images videos files [] ok bid).sentAtStamped
        = false := by
  simp only [broadcasts_new_submit, if_neg hcontent]
  simp

/-- Claim C6 witness: title "T", no media, empty user set. -/
theorem C6_no_recipients_witness :
    (broadcasts_new_submit "T" "" [] [] [] [] (fun _ _ => true) 1).error
        = some SubmitError.noRecipients ∧
    (broadcasts_new_submit "T" "" [] [] [] [] (fun _ _ => true) 1).createdBroadcast
        = none ∧
    (broadcasts_new_submit "T" "" [] [] [] [] (fun _ _ => true) 1).fileRows = [] ∧
    (broadcasts_new_submit "T" "" [] [] [] [] (fun _ _ => true) 1).savedPaths = [] ∧
    (broadcasts_new_submit "T" "" [] [] [] [] (fun _ _ => true) 1).trace = [] ∧
    (broadcasts_new_submit "T" "" [] [] [] [] (fun _ _ => true) 1).sentAtStamped
        = false :=
  C6_no_recipients_persists_nothing "T" "" [] [] [] (fun _ _ => true) 1 (by decide)

/-- Claim C6 counterexample: a compose call with empty title, empty body
and no uploads, made when the user set is empty, fails with the
"empty broadcast" validation error, not the "no recipients" one — the
empty-content check runs before the recipient check. -/
theorem C6_counterexample_empty_form :
    (broadcasts_new_submit "" "" [] [] [] [] (fun _ _ => true) 1).error
        = some SubmitError.emptyBroadcast ∧
    ¬((broadcasts_new_submit "" "" [] [] [] [] (fun _ _ => true) 1).error
        = some SubmitError.noRecipients) := by
  constructor
  · rfl
  · decide

end Kazoo
